import Mathlib

/-!
# Verification of the Number Input Task drill

Shallow embedding of the core logic of
`src/Number Input Task 02102025/src/App.tsx`: the number verbalizer
`toWords`, the target generator `randomTarget`, and the trial state
machine (the React component's state fields together with its event
handlers and `setTimeout` callbacks).

Modelling conventions:
* JavaScript digit strings (`target`, `input`) are modelled as `List Char`;
  other JavaScript strings stay `String`.
* JavaScript numbers are modelled as `Nat` where only in-range integers
  can occur, and as `ℚ` where non-integral values matter (`Math.random()`
  output, the argument of `toWords`).  For the magnitudes involved
  (at most 999, denominators of `Math.random()` outputs) IEEE doubles are
  exact on every operation performed, so `ℚ` is a faithful model.
* JavaScript array indexing that can produce `undefined` is modelled by an
  `Option`-valued lookup; `none` marks that some table access was out of
  bounds.
* each `setTimeout` callback is modelled as a pending `Timer` carrying the
  values its JavaScript closure captured at scheduling time; the source
  never calls `clearTimeout`, so nothing ever removes a pending timer
  except its own firing.
-/

namespace NumberInput

/-- The `ones` word table defined inside `toWords` in App.tsx. -/
def ones : List String :=
  ["zero","one","two","three","four","five","six","seven","eight","nine",
   "ten","eleven","twelve","thirteen","fourteen","fifteen","sixteen",
   "seventeen","eighteen","nineteen"]

/-- The `tens` word table defined inside `toWords` in App.tsx. -/
def tens : List String :=
  ["","","twenty","thirty","forty","fifty","sixty","seventy","eighty","ninety"]

/-- `toWords` from App.tsx, restricted to nonnegative integers (`Nat`), the
only values the state machine ever passes it.  The leading
`!Number.isFinite(n) || n < 0 || n > 999` guard degenerates to `999 < n`
for `Nat`; in-range table lookups are total (see `toWordsJS` below for the
variant that tracks out-of-bounds indexing on arbitrary numbers). -/
def toWords (n : Nat) : String :=
  if 999 < n then toString n
  else if n < 20 then ones.getD n ""
  else if n < 100 then
    let t := n / 10
    let r := n % 10
    if r ≠ 0 then tens.getD t "" ++ " " ++ ones.getD r ""
    else tens.getD t ""
  else
    let h := n / 100
    let r := n % 100
    let head := ones.getD h "" ++ " hundred"
    if r = 0 then head
    else if r < 20 then head ++ " and " ++ ones.getD r ""
    else
      let t := r / 10
      let u := r % 10
      if u ≠ 0 then head ++ " and " ++ tens.getD t "" ++ " " ++ ones.getD u ""
      else head ++ " and " ++ tens.getD t ""

/-- The spec's verbalization algorithm (§4.1), written from its words:
0–19 from the literal word table; 20–99 as the tens word plus, when the
remainder is nonzero, a space and the ones word; 100–999 as the hundreds
word plus " hundred", then nothing when the remainder is 0, " and " plus
the ones word when the remainder is below 20, and otherwise " and " plus
the tens word plus, when a units digit remains, a space and the ones word.
Stated over `Nat`, in range by hypothesis wherever it is used. -/
def specVerbalize (n : Nat) : String :=
  if n < 20 then ones.getD n ""
  else if n < 100 then
    if n % 10 = 0 then tens.getD (n / 10) ""
    else tens.getD (n / 10) "" ++ " " ++ ones.getD (n % 10) ""
  else
    let head := ones.getD (n / 100) "" ++ " hundred"
    if n % 100 = 0 then head
    else if n % 100 < 20 then head ++ " and " ++ ones.getD (n % 100) ""
    else if n % 10 = 0 then head ++ " and " ++ tens.getD (n % 100 / 10) ""
    else head ++ " and " ++ tens.getD (n % 100 / 10) "" ++ " " ++ ones.getD (n % 10) ""

/-- JavaScript `a % b` on numbers, for the nonnegative dividends and
positive divisors `toWords` uses; on those it agrees with
`a - b * Math.floor(a / b)`. -/
def jsMod (a b : ℚ) : ℚ := a - b * ⌊a / b⌋

/-- JavaScript array indexing `l[q]` on a `string[]`: yields an element
exactly when the index is a nonnegative integer within bounds; `none`
models `undefined`. -/
def arrGet (l : List String) (q : ℚ) : Option String :=
  if q.den = 1 ∧ 0 ≤ q.num then l.get? q.num.toNat else none

/-- `toWords` from App.tsx over arbitrary finite JavaScript numbers,
modelled as `ℚ`, with every word-table access `Option`-tracked: a `none`
result records that some table lookup returned `undefined`.
`Number.isFinite` holds of every rational, so the entry guard reduces to
the range test, and the out-of-range fallback `String(n)` is modelled by
`toString`. -/
def toWordsJS (n : ℚ) : Option String :=
  if n < 0 ∨ 999 < n then some (toString n)
  else if n < 20 then arrGet ones n
  else if n < 100 then
    let t : ℚ := ((⌊n / 10⌋ : Int) : ℚ)
    let r : ℚ := jsMod n 10
    if r ≠ 0 then do
      let a ← arrGet tens t
      let b ← arrGet ones r
      some (a ++ " " ++ b)
    else arrGet tens t
  else
    let h : ℚ := ((⌊n / 100⌋ : Int) : ℚ)
    let r : ℚ := jsMod n 100
    do
    let hw ← arrGet ones h
    let head := hw ++ " hundred"
    if r = 0 then some head
    else if r < 20 then do
      let b ← arrGet ones r
      some (head ++ " and " ++ b)
    else
      let t : ℚ := ((⌊r / 10⌋ : Int) : ℚ)
      let u : ℚ := jsMod r 10
      if u ≠ 0 then do
        let a ← arrGet tens t
        let b ← arrGet ones u
        some (head ++ " and " ++ a ++ " " ++ b)
      else do
        let a ← arrGet tens t
        some (head ++ " and " ++ a)

/-- `randomTarget` from App.tsx.  `rnd` models the `Math.random()` sample,
a number in `[0, 1)`; `Math.floor` is `Int.floor` and `String(...)` of the
resulting integer-valued number is `toString` of the integer. -/
def randomTarget (digits : Nat) (rnd : ℚ) : String :=
  if digits = 1 then toString ⌊rnd * 10⌋
  else
    let mn : Int := 10 ^ (digits - 1)
    let mx : Int := 10 ^ digits - 1
    toString (⌊rnd * ((mx : ℚ) - (mn : ℚ) + 1)⌋ + mn)

/-! ## Trial state machine

The React component's state and its event handlers.  JavaScript digit
strings are `List Char`; `Math.random`-driven target generation is
abstracted by an oracle `Nat → List Char` indexed by the number of
`randomTarget` calls made so far; `performance.now()` readings are the
`tNow` arguments.  `setTimeout` callbacks are pending `Timer`s that carry
the values their closures captured; the source never calls `clearTimeout`,
so a pending timer is removed only by its own firing. -/

/-- The `status` React state field of `App`. -/
inductive Status
  | idle
  | listening
  | correct
  | incorrect
  | complete
  deriving DecidableEq

/-- One element of the `results` array of `App`. -/
structure TrialRecord where
  target : List Char
  response : List Char
  correct : Bool
  timeMs : Nat
  deriving DecidableEq

/-- A pending `setTimeout` callback of `App` with its captured values.
* `advance`: the 2000 ms callback scheduled on a correct answer; captures
  `hadErrorThisTarget`, `trialIdx`, `totalTrials` and `level`.
* `retry`: the 2000 ms callback scheduled on a wrong answer; captures the
  `target` and `level` used for the re-spoken phrase.
* `resetStart`: the 100 ms callback of `resetAll`; it invokes the
  `startNextTrial` closure of the render `resetAll` ran in, whose captured
  `trialIdx`/`totalTrials`/`level` are the pre-reset values. -/
inductive Timer
  | advance (hadErr : Bool) (capIdx capTotal lvl : Nat)
  | retry (tgt : List Char) (lvl : Nat)
  | resetStart (capIdx capTotal lvl : Nat)
  deriving DecidableEq

/-- The session state of `App`: its core `useState` fields and the
`trialStartRef` ref, plus instrumentation of the external world — `gen`
counts `randomTarget` calls, `timers` lists pending `setTimeout`
callbacks, `spoken` logs the phrases dispatched to speech, most recent
first.  (`volume` and the voice handle affect only audio output and are
omitted.) -/
structure St where
  level : Nat
  totalTrials : Nat
  trialIdx : Nat
  target : List Char
  input : List Char
  status : Status
  results : List TrialRecord
  score : Nat
  hadErrorThisTarget : Bool
  showHint : Bool
  showGuide : Bool
  trialStart : Option Nat
  gen : Nat
  timers : List Timer
  spoken : List String
  deriving DecidableEq

/-- The initial `useState` values of `App`: level 1, 10 trials, idle. -/
def initSt : St :=
  { level := 1, totalTrials := 10, trialIdx := 0, target := [], input := [],
    status := .idle, results := [], score := 0, hadErrorThisTarget := false,
    showHint := false, showGuide := false, trialStart := none, gen := 0,
    timers := [], spoken := [] }

/-- `Number(tgt)` for a digit string (the only shape of string the state
machine passes it). -/
def strToNat (tgt : List Char) : Nat :=
  tgt.foldl (fun a c => a * 10 + (c.toNat - '0'.toNat)) 0

/-- The `map[tgt] ?? tgt` lookup in `speechTextForTarget` for a
single-digit target. -/
def digitWord (tgt : List Char) : String :=
  if tgt = ['0'] then "zero"
  else if tgt = ['1'] then "one"
  else if tgt = ['2'] then "two"
  else if tgt = ['3'] then "three"
  else if tgt = ['4'] then "four"
  else if tgt = ['5'] then "five"
  else if tgt = ['6'] then "six"
  else if tgt = ['7'] then "seven"
  else if tgt = ['8'] then "eight"
  else if tgt = ['9'] then "nine"
  else String.mk tgt

/-- `speechTextForTarget` from App.tsx. -/
def speechTextForTarget (tgt : List Char) (lvl : Nat) : String :=
  if 2 ≤ lvl then toWords (strToNat tgt) else digitWord tgt

/-- The body of `startNextTrial`, parametrized by the captured values of
`trialIdx` and `totalTrials` and by the `lvl` argument of the closure that
invokes it.  `oracle k` is the digit string `randomTarget` returns on its
`k`-th call. -/
def startNextTrialWith (oracle : Nat → List Char) (tNow : Nat)
    (capIdx capTotal lvl : Nat) (s : St) : St :=
  if capTotal ≤ capIdx then
    { s with showGuide := false, status := .complete }
  else
    let t := oracle s.gen
    { s with
      trialIdx := capIdx + 1, target := t, input := [],
      status := .listening, showHint := false, hadErrorThisTarget := false,
      trialStart := some tNow, gen := s.gen + 1,
      spoken := speechTextForTarget t lvl :: s.spoken }

/-- `startNextTrial()` invoked from the current render (the `Next` button
or the `n` key): the captured values are the live ones, and `lvl` defaults
to the current `level`. -/
def startNextTrial (oracle : Nat → List Char) (tNow : Nat) (s : St) : St :=
  startNextTrialWith oracle tNow s.trialIdx s.totalTrials s.level s

/-- `resetAll` from App.tsx.  It cancels in-flight speech but no timer:
the pending list is preserved, gaining the scheduled 100 ms auto-start,
whose closure captured the pre-reset `trialIdx`/`totalTrials`/`level`. -/
def resetAll (s : St) : St :=
  { s with
    results := [], score := 0, trialIdx := 0, status := .idle,
    input := [], showHint := false, showGuide := false,
    hadErrorThisTarget := false,
    timers := s.timers ++ [.resetStart s.trialIdx s.totalTrials s.level] }

/-- `backspace` from App.tsx. -/
def backspace (s : St) : St :=
  if s.status ≠ .listening then s
  else if s.input.length = 0 then s
  else { s with input := s.input.dropLast }

/-- `clear` from App.tsx. -/
def clear (s : St) : St :=
  if s.status ≠ .listening then s
  else { s with input := [] }

/-- `listen` from App.tsx — the replay event: a no-op without a target,
otherwise it re-dispatches the current target's phrase to speech. -/
def listen (s : St) : St :=
  if s.target = [] then s
  else { s with spoken := speechTextForTarget s.target s.level :: s.spoken }

/-- `handleDigit` from App.tsx.  A digit is ignored unless the status is
`listening` and the input is shorter than the target; a length-completing
digit evaluates the attempt, appends a `TrialRecord`, plays feedback, and
schedules the 2000 ms `advance` or `retry` timer with the values the
source closure captures at that moment. -/
def handleDigit (tNow : Nat) (d : Char) (s : St) : St :=
  if s.status ≠ .listening then s
  else if s.target.length ≤ s.input.length then s
  else
    let next := s.input ++ [d]
    let need := s.target.length
    if next.length = need then
      let correct : Bool := decide (next = s.target)
      let timeMs := tNow - (s.trialStart.getD tNow)
      let s1 : St := { s with
        input := next,
        results := s.results ++ [{
          target := s.target, response := next,
          correct := correct, timeMs := timeMs }],
        status := if correct then .correct else .incorrect }
      if correct then
        { s1 with
          timers := s1.timers ++
            [.advance s.hadErrorThisTarget s.trialIdx s.totalTrials s.level] }
      else
        { s1 with
          hadErrorThisTarget := true,
          timers := s1.timers ++ [.retry s.target s.level] }
    else
      { s with input := next }

/-- Firing a pending `setTimeout` callback against the current state.
The fired timer is spent (removed from the pending list); the callback
body follows the source closure, reading captured values where the
closure does and the live state where it uses functional `setState`
updates. -/
def fireTimer (oracle : Nat → List Char) (tNow : Nat) (tm : Timer)
    (s : St) : St :=
  let s0 := { s with timers := s.timers.erase tm }
  match tm with
  | .advance hadErr capIdx capTotal lvl =>
    let s1 := if hadErr then s0 else { s0 with score := s0.score + 1 }
    if capTotal ≤ capIdx then
      { s1 with showGuide := false, status := .complete }
    else
      startNextTrialWith oracle tNow capIdx capTotal lvl s1
  | .retry tgt lvl =>
    { s0 with
      input := [], status := .listening,
      spoken := speechTextForTarget tgt lvl :: s0.spoken }
  | .resetStart capIdx capTotal lvl =>
    startNextTrialWith oracle tNow capIdx capTotal lvl s0

/-- The `useEffect` on `[level]`: resets metrics and returns to `idle`
without auto-starting; `showGuide`, the current target and pending timers
are untouched. -/
def levelChange (newLevel : Nat) (s : St) : St :=
  { s with
    level := newLevel, results := [], score := 0, trialIdx := 0,
    status := .idle, input := [], showHint := false,
    hadErrorThisTarget := false }

/-- The `useEffect` on `[totalTrials]`: once the value has changed, a
session in progress triggers `resetAll`. -/
def totalTrialsChange (newTotal : Nat) (s : St) : St :=
  let s1 : St := { s with totalTrials := newTotal }
  if s1.status ≠ .idle ∨ 0 < s1.results.length ∨ 0 < s1.trialIdx then
    resetAll s1
  else s1

/-- Typing a sequence of digits, one `handleDigit` event each. -/
def feedDigits (tNow : Nat) (ds : List Char) (s : St) : St :=
  ds.foldl (fun t d => handleDigit tNow d t) s

/-- `n` consecutive replay events. -/
def listenN : Nat → St → St
  | 0, s => s
  | n + 1, s => listen (listenN n s)

/-- A target oracle that always generates the digit string "47". -/
def oracle47 : Nat → List Char := fun _ => ['4', '7']

/-- A target oracle that always generates the digit string "7". -/
def oracle7 : Nat → List Char := fun _ => ['7']

/-- A concrete mid-session `listening` state (level 2, target "47",
3 of 10 trials started), used to evaluate the handlers on closed input. -/
def sampleListening : St :=
  { level := 2, totalTrials := 10, trialIdx := 3, target := ['4', '7'],
    input := [], status := .listening, results := [], score := 2,
    hadErrorThisTarget := false, showHint := false, showGuide := false,
    trialStart := some 1000, gen := 3, timers := [], spoken := [] }

/-- `sampleListening` with the input already at target length (a state in
which further digits are ignored). -/
def sampleFull : St :=
  { sampleListening with input := ['4', '7'] }

/-- A concrete level-2 session: start, type the wrong answer "57" for
target "47", let the retry timer fire, then type the correct "47". -/
def c3State : St :=
  feedDigits 9000 ['4', '7']
    (fireTimer oracle47 8000 (.retry ['4', '7'] 2)
      (feedDigits 5000 ['5', '7']
        (fireTimer oracle47 1100 (.resetStart 0 10 2)
          (resetAll (levelChange 2 initSt)))))

/-- A concrete level-1 session state just after: start, answer trial 1
correctly (scheduling the 2000 ms advance timer), then press Reset before
the timer fires. -/
def c4Reset : St :=
  resetAll
    (handleDigit 500 '7'
      (fireTimer oracle7 100 (.resetStart 0 10 1) (resetAll initSt)))

/-- `c4Reset` after the stale advance timer scheduled before the reset
fires. -/
def c4After : St :=
  fireTimer oracle7 2500 (.advance false 1 10 1) c4Reset

/-- A concrete session with `totalTrials = 50` after pressing Next ten
times: ten trials started, listening on target "7". -/
def c5Mid : St :=
  (fun s => startNextTrial oracle7 0 s)^[10] (totalTrialsChange 50 initSt)

/-- `c5Mid` after answering the current target correctly: the advance
timer is scheduled capturing `trialIdx = 10`, `totalTrials = 50`. -/
def c5Correct : St :=
  handleDigit 30 '7' c5Mid

/-- `c5Correct` after the user changes the trial count to 10, which
triggers a full restart — but cancels no timer. -/
def c5Changed : St :=
  totalTrialsChange 10 c5Correct

/-- `c5Changed` after the stale advance timer fires. -/
def c5After : St :=
  fireTimer oracle7 5000 (.advance false 10 50 1) c5Changed

/-! ## Theorems -/

/-- Replay changes at most the speech log: every other field is kept. -/
theorem listen_fields (s : St) :
    (listen s).level = s.level ∧ (listen s).totalTrials = s.totalTrials ∧
    (listen s).trialIdx = s.trialIdx ∧ (listen s).target = s.target ∧
    (listen s).input = s.input ∧ (listen s).status = s.status ∧
    (listen s).results = s.results ∧ (listen s).score = s.score ∧
    (listen s).hadErrorThisTarget = s.hadErrorThisTarget ∧
    (listen s).trialStart = s.trialStart ∧ (listen s).gen = s.gen ∧
    (listen s).timers = s.timers := by
  rw [listen]
  split <;> exact ⟨rfl, rfl, rfl, rfl, rfl, rfl, rfl, rfl, rfl, rfl, rfl, rfl⟩

/-- Decimal representations of the integers the generator can produce:
their lengths and leading characters, checked exhaustively below 1000. -/
theorem repr_digit_facts :
    ∀ m : Nat, m < 1000 →
      (Nat.repr m).length = (if m < 10 then 1 else if m < 100 then 2 else 3) ∧
      (10 ≤ m → (Nat.repr m).data.head? ≠ some '0') := by
  set_option maxRecDepth 100000 in
  set_option maxHeartbeats 2000000 in
  decide

/-- `toString` of a cast natural is its decimal representation. -/
theorem toString_int_ofNat (m : Nat) : toString ((m : Nat) : Int) = Nat.repr m := rfl

/-- Floor of `rnd * c` lies in `[0, c)` for `rnd ∈ [0, 1)`. -/
theorem floor_mul_bounds (rnd : ℚ) (c : Nat) (h0 : 0 ≤ rnd) (h1 : rnd < 1)
    (hc : 0 < c) : 0 ≤ ⌊rnd * (c : ℚ)⌋ ∧ ⌊rnd * (c : ℚ)⌋ < (c : Int) := by
  constructor
  · exact Int.floor_nonneg.mpr (mul_nonneg h0 (by positivity))
  · rw [Int.floor_lt]
    push_cast
    calc rnd * (c : ℚ) < 1 * (c : ℚ) :=
          mul_lt_mul_of_pos_right h1 (by exact_mod_cast hc)
    _ = (c : ℚ) := one_mul _

/-- Floor of a quotient of cast naturals is natural division. -/
theorem intFloor_natCast_div (m k : Nat) :
    ⌊((m : ℚ) / (k : ℚ))⌋ = ((m / k : Nat) : Int) := by
  rw [← Int.natCast_floor_eq_floor
    (div_nonneg (Nat.cast_nonneg m) (Nat.cast_nonneg k)), Nat.floor_div_eq_div]

/-- Specialization of `intFloor_natCast_div` to the literal divisor 10. -/
theorem floor_div_ten (m : Nat) : ⌊(m : ℚ) / 10⌋ = ((m / 10 : Nat) : Int) := by
  have h := intFloor_natCast_div m 10
  rwa [show ((10 : Nat) : ℚ) = (10 : ℚ) by norm_num] at h

/-- Specialization of `intFloor_natCast_div` to the literal divisor 100. -/
theorem floor_div_hundred (m : Nat) : ⌊(m : ℚ) / 100⌋ = ((m / 100 : Nat) : Int) := by
  have h := intFloor_natCast_div m 100
  rwa [show ((100 : Nat) : ℚ) = (100 : ℚ) by norm_num] at h

/-- The JavaScript remainder of cast naturals is the natural remainder. -/
theorem jsMod_natCast (m k : Nat) :
    jsMod (m : ℚ) (k : ℚ) = ((m % k : Nat) : ℚ) := by
  have h : (k * (m / k) + m % k : Nat) = m := Nat.div_add_mod m k
  have h' : (k : ℚ) * ((m / k : Nat) : ℚ) + ((m % k : Nat) : ℚ) = (m : ℚ) := by
    exact_mod_cast congrArg (fun x : Nat => (x : ℚ)) h
  rw [jsMod, intFloor_natCast_div]
  rw [show (((m / k : Nat) : Int) : ℚ) = ((m / k : Nat) : ℚ) from Int.cast_natCast _]
  linarith

/-- Specialization of `jsMod_natCast` to the literal divisor 10. -/
theorem jsMod_ten (m : Nat) : jsMod (m : ℚ) 10 = ((m % 10 : Nat) : ℚ) := by
  have h := jsMod_natCast m 10
  rwa [show ((10 : Nat) : ℚ) = (10 : ℚ) by norm_num] at h

/-- Specialization of `jsMod_natCast` to the literal divisor 100. -/
theorem jsMod_hundred (m : Nat) : jsMod (m : ℚ) 100 = ((m % 100 : Nat) : ℚ) := by
  have h := jsMod_natCast m 100
  rwa [show ((100 : Nat) : ℚ) = (100 : ℚ) by norm_num] at h

/-- Array indexing at a cast natural is plain list lookup. -/
theorem arrGet_natCast (l : List String) (m : Nat) :
    arrGet l (m : ℚ) = l.get? m := by
  simp [arrGet]

/-- In-bounds lookups in the `ones` table succeed and agree with `getD`. -/
theorem ones_get_lt : ∀ i : Nat, i < 20 → ones.get? i = some (ones.getD i "") := by
  decide

/-- In-bounds lookups in the `tens` table succeed and agree with `getD`. -/
theorem tens_get_lt : ∀ i : Nat, i < 10 → tens.get? i = some (tens.getD i "") := by
  decide

/-- `toWords` never returns the empty string in range. -/
theorem toWords_ne_empty : ∀ n : Nat, n < 1000 → toWords n ≠ "" := by
  set_option maxRecDepth 100000 in
  set_option maxHeartbeats 1000000 in
  decide

/-- On cast in-range naturals, the `Option`-tracked verbalizer succeeds and
agrees with the `Nat` restriction: every table lookup is in bounds. -/
theorem toWordsJS_natCast (m : Nat) (hm : m ≤ 999) :
    toWordsJS (m : ℚ) = some (toWords m) := by
  have h999 : ¬ ((m : ℚ) < 0 ∨ 999 < (m : ℚ)) := by
    rintro (h | h)
    · exact absurd h (not_lt.mpr (Nat.cast_nonneg m))
    · rw [show (999 : ℚ) = ((999 : Nat) : ℚ) by norm_num] at h
      exact absurd (Nat.cast_lt.mp h) (by omega)
  have h999n : ¬ 999 < m := by omega
  rw [toWordsJS, toWords, if_neg h999, if_neg h999n]
  by_cases h20 : m < 20
  · have hq : (m : ℚ) < 20 := by
      rw [show (20 : ℚ) = ((20 : Nat) : ℚ) by norm_num]
      exact_mod_cast h20
    rw [if_pos hq, if_pos h20, arrGet_natCast, ones_get_lt m h20]
  · have hq : ¬ (m : ℚ) < 20 := by
      rw [show (20 : ℚ) = ((20 : Nat) : ℚ) by norm_num]
      exact fun h => h20 (Nat.cast_lt.mp h)
    rw [if_neg hq, if_neg h20]
    by_cases h100 : m < 100
    · have hq100 : (m : ℚ) < 100 := by
        rw [show (100 : ℚ) = ((100 : Nat) : ℚ) by norm_num]
        exact_mod_cast h100
      rw [if_pos hq100, if_pos h100]
      simp only [floor_div_ten, jsMod_ten, Int.cast_natCast, arrGet_natCast]
      rw [tens_get_lt (m / 10) (by omega), ones_get_lt (m % 10) (by omega)]
      by_cases hr : m % 10 = 0
      · simp [hr]
      · have hrq : ((m % 10 : Nat) : ℚ) ≠ 0 := Nat.cast_ne_zero.mpr hr
        simp [hr, hrq]
    · have hq100 : ¬ (m : ℚ) < 100 := by
        rw [show (100 : ℚ) = ((100 : Nat) : ℚ) by norm_num]
        exact fun h => h100 (Nat.cast_lt.mp h)
      rw [if_neg hq100, if_neg h100]
      simp only [floor_div_hundred, floor_div_ten, jsMod_hundred, jsMod_ten,
        Int.cast_natCast, arrGet_natCast]
      rw [ones_get_lt (m / 100) (by omega)]
      by_cases hr0 : m % 100 = 0
      · simp [hr0]
      · have hr0q : ((m % 100 : Nat) : ℚ) ≠ 0 := Nat.cast_ne_zero.mpr hr0
        by_cases hr20 : m % 100 < 20
        · have hr20q : ((m % 100 : Nat) : ℚ) < 20 := by
            rw [show (20 : ℚ) = ((20 : Nat) : ℚ) by norm_num]
            exact_mod_cast hr20
          rw [ones_get_lt (m % 100) (by omega)]
          simp [hr0, hr0q, hr20, hr20q]
        · have hr20q : ¬ ((m % 100 : Nat) : ℚ) < 20 := by
            rw [show (20 : ℚ) = ((20 : Nat) : ℚ) by norm_num]
            exact fun h => hr20 (Nat.cast_lt.mp h)
          rw [tens_get_lt (m % 100 / 10) (by omega),
            ones_get_lt (m % 100 % 10) (by omega)]
          by_cases hu : m % 100 % 10 = 0
          · simp [hr0, hr0q, hr20, hr20q, hu]
          · have huq : ((m % 100 % 10 : Nat) : ℚ) ≠ 0 := Nat.cast_ne_zero.mpr hu
            simp [hr0, hr0q, hr20, hr20q, hu, huq]

/-- C1: for every integer `n` with `0 ≤ n ≤ 999`, `toWords n` equals the
words produced by the spec's algorithm, and the spec's oracle-table
examples all hold. -/
theorem toWords_matches_spec :
    (∀ n : Nat, n ≤ 999 → toWords n = specVerbalize n) ∧
    toWords 0 = "zero" ∧ toWords 19 = "nineteen" ∧ toWords 21 = "twenty one" ∧
    toWords 100 = "one hundred" ∧ toWords 101 = "one hundred and one" ∧
    toWords 110 = "one hundred and ten" ∧ toWords 219 = "two hundred and nineteen" ∧
    toWords 305 = "three hundred and five" ∧ toWords 340 = "three hundred and forty" ∧
    toWords 400 = "four hundred" ∧ toWords 999 = "nine hundred and ninety nine" := by
  refine ⟨?_, by decide, by decide, by decide, by decide, by decide, by decide,
    by decide, by decide, by decide, by decide, by decide⟩
  set_option maxRecDepth 100000 in
  set_option maxHeartbeats 2000000 in
  decide

/-- Witness for C1: the spec/code agreement evaluated at the concrete
input 347. -/
theorem toWords_matches_spec_witness :
    toWords 347 = specVerbalize 347 :=
  toWords_matches_spec.1 347 (by decide)

/-- C6: for every digit level in `{1,2,3}` and every possible
`Math.random()` sample, `randomTarget` returns the decimal string of an
integer in `[0,9]`, `[10,99]`, `[100,999]` respectively; the string has
length exactly the digit level and, for levels 2 and 3, does not start
with `'0'`. -/
theorem randomTarget_in_range (digits : Nat) (rnd : ℚ)
    (hd : digits = 1 ∨ digits = 2 ∨ digits = 3) (h0 : 0 ≤ rnd) (h1 : rnd < 1) :
    ∃ m : Nat,
      randomTarget digits rnd = Nat.repr m ∧
      (digits = 1 → m ≤ 9) ∧
      (digits = 2 → 10 ≤ m ∧ m ≤ 99) ∧
      (digits = 3 → 100 ≤ m ∧ m ≤ 999) ∧
      (Nat.repr m).length = digits ∧
      (2 ≤ digits → (Nat.repr m).data.head? ≠ some '0') := by
  rcases hd with h | h | h
  · subst h
    obtain ⟨hlo, hhi⟩ := floor_mul_bounds rnd 10 h0 h1 (by norm_num)
    push_cast at hlo hhi
    refine ⟨⌊rnd * (10 : ℚ)⌋.toNat, ?_, ?_, ?_, ?_, ?_, ?_⟩
    · rw [randomTarget, if_pos rfl]
      rw [show ⌊rnd * (10 : ℚ)⌋ = ((⌊rnd * (10 : ℚ)⌋.toNat : Nat) : Int) from
        (Int.toNat_of_nonneg hlo).symm]
      exact toString_int_ofNat _
    · intro _; omega
    · intro h2; exact absurd h2 (by norm_num)
    · intro h3; exact absurd h3 (by norm_num)
    · have hlt : ⌊rnd * (10 : ℚ)⌋.toNat < 10 := by omega
      rw [(repr_digit_facts _ (by omega)).1]
      simp [hlt]
    · intro h2; exact absurd h2 (by norm_num)
  · subst h
    obtain ⟨hlo, hhi⟩ := floor_mul_bounds rnd 90 h0 h1 (by norm_num)
    push_cast at hlo hhi
    refine ⟨(⌊rnd * (90 : ℚ)⌋ + 10).toNat, ?_, ?_, ?_, ?_, ?_, ?_⟩
    · simp only [randomTarget]
      norm_num
      rw [show (⌊rnd * (90 : ℚ)⌋ + 10 : Int) =
          (((⌊rnd * (90 : ℚ)⌋ + 10).toNat : Nat) : Int) from
        (Int.toNat_of_nonneg (by omega)).symm]
      exact toString_int_ofNat _
    · intro h1'; exact absurd h1' (by norm_num)
    · intro _; constructor <;> omega
    · intro h3; exact absurd h3 (by norm_num)
    · have h10 : ¬ (⌊rnd * (90 : ℚ)⌋ + 10).toNat < 10 := by omega
      have h100 : (⌊rnd * (90 : ℚ)⌋ + 10).toNat < 100 := by omega
      rw [(repr_digit_facts _ (by omega)).1]
      simp [h10, h100]
    · intro _
      exact (repr_digit_facts (⌊rnd * (90 : ℚ)⌋ + 10).toNat (by omega)).2 (by omega)
  · subst h
    obtain ⟨hlo, hhi⟩ := floor_mul_bounds rnd 900 h0 h1 (by norm_num)
    push_cast at hlo hhi
    refine ⟨(⌊rnd * (900 : ℚ)⌋ + 100).toNat, ?_, ?_, ?_, ?_, ?_, ?_⟩
    · simp only [randomTarget]
      norm_num
      rw [show (⌊rnd * (900 : ℚ)⌋ + 100 : Int) =
          (((⌊rnd * (900 : ℚ)⌋ + 100).toNat : Nat) : Int) from
        (Int.toNat_of_nonneg (by omega)).symm]
      exact toString_int_ofNat _
    · intro h1'; exact absurd h1' (by norm_num)
    · intro h2; exact absurd h2 (by norm_num)
    · intro _; constructor <;> omega
    · have h10 : ¬ (⌊rnd * (900 : ℚ)⌋ + 100).toNat < 10 := by omega
      have h100 : ¬ (⌊rnd * (900 : ℚ)⌋ + 100).toNat < 100 := by omega
      rw [(repr_digit_facts _ (by omega)).1]
      simp [h10, h100]
    · intro _
      exact (repr_digit_facts (⌊rnd * (900 : ℚ)⌋ + 100).toNat (by omega)).2 (by omega)

/-- Witness for C6: the generator evaluated at level 2 with sample 1/3
produces "40", the decimal string of 40 ∈ [10,99]. -/
theorem randomTarget_in_range_witness :
    ∃ m : Nat,
      randomTarget 2 (1 / 3) = Nat.repr m ∧
      ((2 : Nat) = 1 → m ≤ 9) ∧
      ((2 : Nat) = 2 → 10 ≤ m ∧ m ≤ 99) ∧
      ((2 : Nat) = 3 → 100 ≤ m ∧ m ≤ 999) ∧
      (Nat.repr m).length = 2 ∧
      (2 ≤ (2 : Nat) → (Nat.repr m).data.head? ≠ some '0') :=
  randomTarget_in_range 2 (1 / 3) (Or.inr (Or.inl rfl)) (by norm_num) (by norm_num)

/-- C10: under the precondition that the argument is an integer with
`0 ≤ n ≤ 999`, every word-table lookup performed by `toWords` is within
bounds and the result is a well-defined non-empty word string; the range
check alone does not guarantee this — the in-range non-integer 5/2 makes
a table lookup return `undefined`. -/
theorem toWords_lookups_in_bounds :
    (∀ q : ℚ, q.den = 1 → 0 ≤ q → q ≤ 999 →
      ∃ w, toWordsJS q = some w ∧ w ≠ "") ∧
    (0 ≤ (5 / 2 : ℚ) ∧ (5 / 2 : ℚ) ≤ 999 ∧ toWordsJS (5 / 2) = none) := by
  constructor
  · intro q hden h0 h999
    have hnum : (q.num : ℚ) = q := Rat.coe_int_num_of_den_eq_one hden
    have hnn : 0 ≤ q.num := Rat.num_nonneg.mpr h0
    have hle : q.num ≤ 999 := by
      have h : (q.num : ℚ) ≤ ((999 : Int) : ℚ) := by
        rw [hnum]; exact_mod_cast h999
      exact_mod_cast h
    have hm : q.num.toNat ≤ 999 := by omega
    have hqm : ((q.num.toNat : Nat) : ℚ) = q := by
      rw [← hnum]
      exact_mod_cast congrArg (fun z : Int => (z : ℚ)) (Int.toNat_of_nonneg hnn)
    refine ⟨toWords q.num.toNat, ?_, toWords_ne_empty q.num.toNat (by omega)⟩
    rw [← hqm]
    exact toWordsJS_natCast q.num.toNat hm
  · have hden : (5 / 2 : ℚ).den = 2 := by
      rw [show (5 / 2 : ℚ) = mkRat 5 2 by
        rw [Rat.mkRat_eq_divInt, Rat.divInt_eq_div]; norm_num]
      decide
    refine ⟨by norm_num, by norm_num, ?_⟩
    rw [toWordsJS, if_neg (by norm_num), if_pos (by norm_num), arrGet,
      if_neg ?_]
    rintro ⟨h1, _⟩
    rw [hden] at h1
    exact absurd h1 (by norm_num)

/-- Witness for C10: at the concrete integer input 305, the verbalizer
succeeds with a non-empty word string. -/
theorem toWords_lookups_in_bounds_witness :
    ∃ w, toWordsJS ((305 : ℚ)) = some w ∧ w ≠ "" :=
  toWords_lookups_in_bounds.1 305 (by decide) (by norm_num) (by norm_num)

/-- C7: a digit event in any state other than `listening`, or with the
input already at the target's length, leaves the entire session state
unchanged (silently ignored, no error surfaced); it takes effect —
appending the digit — exactly when the state is `listening` and the input
is strictly shorter than the target. -/
theorem digit_ignored_unless_listening (tNow : Nat) (d : Char) (s : St) :
    ((s.status ≠ .listening ∨ s.target.length ≤ s.input.length) →
      handleDigit tNow d s = s) ∧
    (s.status = .listening → s.input.length < s.target.length →
      (handleDigit tNow d s).input = s.input ++ [d]) := by
  constructor
  · rintro (h | h)
    · rw [handleDigit, if_pos h]
    · rw [handleDigit]
      by_cases h1 : s.status ≠ Status.listening
      · rw [if_pos h1]
      · rw [if_neg h1, if_pos h]
  · intro hst hlen
    rw [handleDigit, if_neg (by simp [hst]), if_neg (not_le.mpr hlen)]
    by_cases hc : (s.input ++ [d]).length = s.target.length
    · rw [if_pos hc]
      dsimp only
      split <;> rfl
    · rw [if_neg hc]

/-- Witness for C7: a digit is ignored when the input is already full,
and appended in a listening state with room. -/
theorem digit_ignored_unless_listening_witness :
    handleDigit 0 '5' sampleFull = sampleFull ∧
    (handleDigit 0 '5' sampleListening).input = sampleListening.input ++ ['5'] :=
  ⟨(digit_ignored_unless_listening 0 '5' sampleFull).1 (Or.inr (by decide)),
   (digit_ignored_unless_listening 0 '5' sampleListening).2 (by decide) (by decide)⟩

/-- C8: the replay event, any number of times, leaves `trialsStarted`,
`firstTryCorrectCount`, the current input, the current target and the
status (and every other session field) unchanged; when a target exists, a
single replay only re-dispatches the current target's phrase to speech. -/
theorem replay_preserves_state (s : St) (n : Nat) :
    (listenN n s).trialIdx = s.trialIdx ∧
    (listenN n s).score = s.score ∧
    (listenN n s).input = s.input ∧
    (listenN n s).target = s.target ∧
    (listenN n s).status = s.status ∧
    (listenN n s).results = s.results ∧
    (listenN n s).hadErrorThisTarget = s.hadErrorThisTarget ∧
    (listenN n s).timers = s.timers ∧
    (s.target ≠ [] → listen s =
      { s with spoken := speechTextForTarget s.target s.level :: s.spoken }) := by
  induction n with
  | zero =>
    refine ⟨rfl, rfl, rfl, rfl, rfl, rfl, rfl, rfl, fun h => ?_⟩
    rw [listen, if_neg h]
  | succ n ih =>
    obtain ⟨h1, h2, h3, h4, h5, h6, h7, h8, h9⟩ := ih
    obtain ⟨_, _, fTrial, fTarget, fInput, fStatus, fResults, fScore,
      fHad, _, _, fTimers⟩ := listen_fields (listenN n s)
    exact ⟨fTrial.trans h1, fScore.trans h2, fInput.trans h3,
      fTarget.trans h4, fStatus.trans h5, fResults.trans h6,
      fHad.trans h7, fTimers.trans h8, h9⟩

/-- Witness for C8: two replays on the concrete listening state keep all
listed fields, and one replay speaks the target's phrase. -/
theorem replay_preserves_state_witness :
    (listenN 2 sampleListening).trialIdx = sampleListening.trialIdx ∧
    (listenN 2 sampleListening).score = sampleListening.score ∧
    (listenN 2 sampleListening).input = sampleListening.input ∧
    (listenN 2 sampleListening).target = sampleListening.target ∧
    (listenN 2 sampleListening).status = sampleListening.status ∧
    (listenN 2 sampleListening).results = sampleListening.results ∧
    (listenN 2 sampleListening).hadErrorThisTarget =
      sampleListening.hadErrorThisTarget ∧
    (listenN 2 sampleListening).timers = sampleListening.timers ∧
    (sampleListening.target ≠ [] → listen sampleListening =
      { sampleListening with
        spoken := speechTextForTarget sampleListening.target
          sampleListening.level :: sampleListening.spoken }) :=
  replay_preserves_state sampleListening 2

/-- `startNextTrialWith` never changes the score. -/
theorem startNextTrialWith_score (oracle : Nat → List Char) (tNow : Nat)
    (capIdx capTotal lvl : Nat) (s : St) :
    (startNextTrialWith oracle tNow capIdx capTotal lvl s).score = s.score := by
  rw [startNextTrialWith]
  split <;> rfl

/-- Firing the advance timer with a captured error flag does not change
the score: the `+1` is guarded by the captured `hadErrorThisTarget`. -/
theorem fireTimer_advance_hadErr_score (oracle : Nat → List Char)
    (tNow a b c : Nat) (x : St) :
    (fireTimer oracle tNow (.advance true a b c) x).score = x.score := by
  rw [fireTimer]
  dsimp only
  split
  · rfl
  · exact startNextTrialWith_score oracle tNow a b c _

/-- Typing exactly the remaining digits of the target from a `listening`
state completes the attempt as correct: one record is appended and the
2000 ms advance timer is scheduled carrying the current error flag. -/
theorem feedDigits_correct (tNow : Nat) (ds : List Char) :
    ∀ s : St, ds ≠ [] → s.status = .listening → s.input ++ ds = s.target →
      feedDigits tNow ds s = { s with
        input := s.target, status := .correct,
        results := s.results ++ [{
          target := s.target, response := s.target,
          correct := true, timeMs := tNow - s.trialStart.getD tNow }],
        timers := s.timers ++
          [.advance s.hadErrorThisTarget s.trialIdx s.totalTrials s.level] } := by
  induction ds with
  | nil =>
    intro s hne _ _
    exact absurd rfl hne
  | cons d rest ih =>
    intro s _ hst htgt
    have hlen := congrArg List.length htgt
    simp only [List.length_append, List.length_cons] at hlen
    cases rest with
    | nil =>
      simp only [List.length_nil] at hlen
      have hle : ¬ s.target.length ≤ s.input.length := by omega
      have hceq : (s.input ++ [d]).length = s.target.length := by
        simp only [List.length_append, List.length_cons, List.length_nil]
        omega
      have hdec : decide (s.input ++ [d] = s.target) = true := decide_eq_true htgt
      simp only [feedDigits, List.foldl_cons, List.foldl_nil]
      rw [handleDigit, if_neg (by simp [hst]), if_neg hle, if_pos hceq]
      simp only [hdec, htgt, decide_True, eq_self_iff_true, if_true]
    | cons d2 rest2 =>
      simp only [List.length_cons] at hlen
      have h1 : ¬ s.target.length ≤ s.input.length := by omega
      have h2 : ¬ (s.input ++ [d]).length = s.target.length := by
        simp only [List.length_append, List.length_cons, List.length_nil]
        omega
      have hstep : handleDigit tNow d s = { s with input := s.input ++ [d] } := by
        rw [handleDigit, if_neg (by simp [hst]), if_neg h1, if_neg h2]
      have hfeed : feedDigits tNow (d :: d2 :: rest2) s =
          feedDigits tNow (d2 :: rest2) (handleDigit tNow d s) := rfl
      rw [hfeed, hstep]
      have htgt2 : (s.input ++ [d]) ++ (d2 :: rest2) = s.target := by
        rw [List.append_assoc]
        simpa using htgt
      exact ih { s with input := s.input ++ [d] } (by simp) hst htgt2

/-- A length-complete wrong attempt: the record is appended, the status
becomes `incorrect`, the error flag is set and the retry timer is
scheduled. -/
theorem handleDigit_wrong (tNow : Nat) (d : Char) (s : St)
    (hst : s.status = .listening)
    (hlen : s.input.length + 1 = s.target.length)
    (hwrong : s.input ++ [d] ≠ s.target) :
    handleDigit tNow d s = { s with
      input := s.input ++ [d],
      results := s.results ++ [{
        target := s.target, response := s.input ++ [d],
        correct := false, timeMs := tNow - s.trialStart.getD tNow }],
      status := .incorrect, hadErrorThisTarget := true,
      timers := s.timers ++ [.retry s.target s.level] } := by
  have hle : ¬ s.target.length ≤ s.input.length := by omega
  have hceq : (s.input ++ [d]).length = s.target.length := by
    simp only [List.length_append, List.length_cons, List.length_nil]
    omega
  have hdec : decide (s.input ++ [d] = s.target) = false := decide_eq_false hwrong
  rw [handleDigit, if_neg (by simp [hst]), if_neg hle, if_pos hceq]
  simp only [hdec, Bool.false_eq_true, if_false]

/-- Firing the retry timer clears the input, returns to `listening` and
re-speaks the captured target's phrase; nothing else changes. -/
theorem fireTimer_retry (oracle : Nat → List Char) (tNow : Nat)
    (tgt : List Char) (lvl : Nat) (s : St) :
    fireTimer oracle tNow (.retry tgt lvl) s = { s with
      timers := s.timers.erase (.retry tgt lvl),
      input := [], status := .listening,
      spoken := speechTextForTarget tgt lvl :: s.spoken } := rfl

/-- C2: after a length-complete wrong attempt the machine is `incorrect`
with the error flag set and the retry timer pending; firing the retry
returns it to `listening` with the input cleared, the same target (no new
one generated, `trialsStarted` unchanged), the same target's phrase
re-dispatched — and the error flag still set, so that typing the correct
answer afterwards reaches `correct` yet firing its advance timer does not
increment `firstTryCorrectCount`. -/
theorem incorrect_retry_behavior (oracle : Nat → List Char)
    (t1 t2 t3 t4 : Nat) (s : St) (d : Char)
    (hst : s.status = .listening)
    (hlen : s.input.length + 1 = s.target.length)
    (hwrong : s.input ++ [d] ≠ s.target) :
    let s1 := handleDigit t1 d s
    let s2 := fireTimer oracle t2 (.retry s.target s.level) s1
    let s3 := feedDigits t3 s.target s2
    s1.status = .incorrect ∧
    s1.hadErrorThisTarget = true ∧
    s1.trialIdx = s.trialIdx ∧
    s1.timers = s.timers ++ [.retry s.target s.level] ∧
    s2.status = .listening ∧
    s2.input = [] ∧
    s2.target = s.target ∧
    s2.trialIdx = s.trialIdx ∧
    s2.gen = s.gen ∧
    s2.hadErrorThisTarget = true ∧
    s2.score = s.score ∧
    s2.spoken = speechTextForTarget s.target s.level :: s1.spoken ∧
    s3.status = .correct ∧
    s3.score = s.score ∧
    s3.timers = s2.timers ++ [.advance true s.trialIdx s.totalTrials s.level] ∧
    (fireTimer oracle t4 (.advance true s.trialIdx s.totalTrials s.level)
      s3).score = s.score := by
  intro s1 s2 s3
  have htne : s.target ≠ [] := by
    intro h
    rw [h] at hlen
    simp at hlen
  have hs1 : s1 = { s with
      input := s.input ++ [d],
      results := s.results ++ [{
        target := s.target, response := s.input ++ [d],
        correct := false, timeMs := t1 - s.trialStart.getD t1 }],
      status := .incorrect, hadErrorThisTarget := true,
      timers := s.timers ++ [.retry s.target s.level] } :=
    handleDigit_wrong t1 d s hst hlen hwrong
  have hs2 : s2 = { s1 with
      timers := s1.timers.erase (.retry s.target s.level),
      input := [], status := .listening,
      spoken := speechTextForTarget s.target s.level :: s1.spoken } :=
    fireTimer_retry oracle t2 s.target s.level s1
  have hs3 : s3 = { s2 with
      input := s2.target, status := .correct,
      results := s2.results ++ [{
        target := s2.target, response := s2.target,
        correct := true, timeMs := t3 - s2.trialStart.getD t3 }],
      timers := s2.timers ++
        [.advance s2.hadErrorThisTarget s2.trialIdx s2.totalTrials s2.level] } :=
    feedDigits_correct t3 s.target s2 htne
      (by rw [hs2]) (by rw [hs2, hs1]; simp)
  refine ⟨by rw [hs1], by rw [hs1], by rw [hs1], by rw [hs1],
    by rw [hs2], by rw [hs2], by rw [hs2, hs1], by rw [hs2, hs1],
    by rw [hs2, hs1], by rw [hs2, hs1], by rw [hs2, hs1],
    by rw [hs2], ?_, ?_, ?_, ?_⟩
  · rw [hs3]
  · rw [hs3, hs2, hs1]
  · rw [hs3, hs2, hs1]
  · rw [fireTimer_advance_hadErr_score, hs3, hs2, hs1]

/-- Witness for C2: the retry scenario evaluated on the concrete state
with target "47" and wrong first digit '5'. -/
theorem incorrect_retry_behavior_witness :
    let s : St := { sampleListening with input := ['5'] }
    let s1 := handleDigit 10 '7' s
    let s2 := fireTimer oracle47 20 (.retry s.target s.level) s1
    let s3 := feedDigits 30 s.target s2
    s1.status = .incorrect ∧
    s1.hadErrorThisTarget = true ∧
    s1.trialIdx = s.trialIdx ∧
    s1.timers = s.timers ++ [.retry s.target s.level] ∧
    s2.status = .listening ∧
    s2.input = [] ∧
    s2.target = s.target ∧
    s2.trialIdx = s.trialIdx ∧
    s2.gen = s.gen ∧
    s2.hadErrorThisTarget = true ∧
    s2.score = s.score ∧
    s2.spoken = speechTextForTarget s.target s.level :: s1.spoken ∧
    s3.status = .correct ∧
    s3.score = s.score ∧
    s3.timers = s2.timers ++ [.advance true s.trialIdx s.totalTrials s.level] ∧
    (fireTimer oracle47 40 (.advance true s.trialIdx s.totalTrials s.level)
      s3).score = s.score :=
  incorrect_retry_behavior oracle47 10 20 30 40
    { sampleListening with input := ['5'] } '7' (by decide) (by decide) (by decide)

/-- C3 is false as stated: in a session that generated exactly one target
("47", `gen = 1`), a wrong attempt followed by the retry and a correct
attempt leaves two Trial Records for that one target, not one. -/
theorem retry_adds_record_cex :
    c3State.gen = 1 ∧
    c3State.results.length = 2 ∧
    c3State.results.map (fun r => r.target) = [['4', '7'], ['4', '7']] := by
  decide

/-- C3 (amended): the Trial Record sequence gains one record per
length-complete attempt, including failed retries: a target answered
wrong once and then correctly carries exactly two records (the failed and
the final evaluation events), while no new target is generated. -/
theorem record_per_attempt (oracle : Nat → List Char)
    (t1 t2 t3 : Nat) (s : St) (d : Char)
    (hst : s.status = .listening)
    (hlen : s.input.length + 1 = s.target.length)
    (hwrong : s.input ++ [d] ≠ s.target) :
    let s1 := handleDigit t1 d s
    let s2 := fireTimer oracle t2 (.retry s.target s.level) s1
    let s3 := feedDigits t3 s.target s2
    s3.results = s.results ++ [
      { target := s.target, response := s.input ++ [d], correct := false,
        timeMs := t1 - s.trialStart.getD t1 },
      { target := s.target, response := s.target, correct := true,
        timeMs := t3 - s.trialStart.getD t3 }] ∧
    s3.gen = s.gen := by
  intro s1 s2 s3
  have htne : s.target ≠ [] := by
    intro h
    rw [h] at hlen
    simp at hlen
  have hs1 : s1 = { s with
      input := s.input ++ [d],
      results := s.results ++ [{
        target := s.target, response := s.input ++ [d],
        correct := false, timeMs := t1 - s.trialStart.getD t1 }],
      status := .incorrect, hadErrorThisTarget := true,
      timers := s.timers ++ [.retry s.target s.level] } :=
    handleDigit_wrong t1 d s hst hlen hwrong
  have hs2 : s2 = { s1 with
      timers := s1.timers.erase (.retry s.target s.level),
      input := [], status := .listening,
      spoken := speechTextForTarget s.target s.level :: s1.spoken } :=
    fireTimer_retry oracle t2 s.target s.level s1
  have hs3 : s3 = { s2 with
      input := s2.target, status := .correct,
      results := s2.results ++ [{
        target := s2.target, response := s2.target,
        correct := true, timeMs := t3 - s2.trialStart.getD t3 }],
      timers := s2.timers ++
        [.advance s2.hadErrorThisTarget s2.trialIdx s2.totalTrials s2.level] } :=
    feedDigits_correct t3 s.target s2 htne
      (by rw [hs2]) (by rw [hs2, hs1]; simp)
  constructor
  · rw [hs3, hs2, hs1]
    simp [List.append_assoc]
  · rw [hs3, hs2, hs1]

/-- Witness for C3's amended claim: evaluated on the concrete "47"
scenario with wrong attempt "57". -/
theorem record_per_attempt_witness :
    let s : St := { sampleListening with input := ['5'] }
    let s1 := handleDigit 10 '7' s
    let s2 := fireTimer oracle47 20 (.retry s.target s.level) s1
    let s3 := feedDigits 30 s.target s2
    s3.results = s.results ++ [
      { target := s.target, response := s.input ++ ['7'], correct := false,
        timeMs := 10 - s.trialStart.getD 10 },
      { target := s.target, response := s.target, correct := true,
        timeMs := 30 - s.trialStart.getD 30 }] ∧
    s3.gen = s.gen :=
  record_per_attempt oracle47 10 20 30
    { sampleListening with input := ['5'] } '7' (by decide) (by decide) (by decide)

/-- C4 is violated by the code: `resetAll` calls no `clearTimeout`, so a
pending delayed transition survives a full reset.  Concretely: trial 1 of
10 is answered correctly (scheduling the 2000 ms advance timer), the user
presses Reset during the delay, and when the stale timer fires it mutates
the reset state — incrementing the score, setting `trialsStarted` to 2
and entering `listening`. -/
theorem stale_timer_mutates_after_reset :
    Timer.advance false 1 10 1 ∈ c4Reset.timers ∧
    c4Reset.status = .idle ∧
    c4Reset.trialIdx = 0 ∧
    c4Reset.score = 0 ∧
    c4Reset.results = [] ∧
    c4After.score = 1 ∧
    c4After.trialIdx = 2 ∧
    c4After.status = .listening := by
  decide

/-- C5 is violated by the code: the `trialsStarted ≤ totalTrials`
invariant breaks through an uncancelled timer.  Ten trials are started
under `totalTrials = 50` and the tenth is answered correctly; changing
the trial count to 10 restarts the session but cancels no timer, and the
stale advance timer then sets `trialsStarted = 11 > 10 = totalTrials`. -/
theorem stale_timer_breaks_trial_bound :
    c5Changed.trialIdx = 0 ∧
    c5Changed.totalTrials = 10 ∧
    Timer.advance false 10 50 1 ∈ c5Changed.timers ∧
    c5After.trialIdx = 11 ∧
    c5After.totalTrials = 10 ∧
    ¬ c5After.trialIdx ≤ c5After.totalTrials := by
  decide

/-- C9: while `trialsStarted < totalTrials`, the start/next event is
accepted in any state — in particular mid-`listening` over a partial
input: it advances `trialsStarted`, generates and speaks a fresh target,
clears the input and the per-target error flag, and appends no Trial
Record, so the record sequence can stay shorter than `trialsStarted`. -/
theorem next_abandons_target (oracle : Nat → List Char) (tNow : Nat)
    (s : St) (h : s.trialIdx < s.totalTrials) :
    (startNextTrial oracle tNow s).trialIdx = s.trialIdx + 1 ∧
    (startNextTrial oracle tNow s).results = s.results ∧
    (startNextTrial oracle tNow s).input = [] ∧
    (startNextTrial oracle tNow s).hadErrorThisTarget = false ∧
    (startNextTrial oracle tNow s).target = oracle s.gen ∧
    (startNextTrial oracle tNow s).gen = s.gen + 1 ∧
    (startNextTrial oracle tNow s).status = .listening ∧
    (startNextTrial oracle tNow s).spoken =
      speechTextForTarget (oracle s.gen) s.level :: s.spoken := by
  rw [startNextTrial, startNextTrialWith, if_neg (not_le.mpr h)]
  exact ⟨rfl, rfl, rfl, rfl, rfl, rfl, rfl, rfl⟩

/-- Witness for C9: pressing next on the concrete listening state (3 of
10 trials started) advances the count and replaces the target. -/
theorem next_abandons_target_witness :
    (startNextTrial oracle47 2000 sampleListening).trialIdx =
      sampleListening.trialIdx + 1 ∧
    (startNextTrial oracle47 2000 sampleListening).results =
      sampleListening.results ∧
    (startNextTrial oracle47 2000 sampleListening).input = [] ∧
    (startNextTrial oracle47 2000 sampleListening).hadErrorThisTarget = false ∧
    (startNextTrial oracle47 2000 sampleListening).target =
      oracle47 sampleListening.gen ∧
    (startNextTrial oracle47 2000 sampleListening).gen =
      sampleListening.gen + 1 ∧
    (startNextTrial oracle47 2000 sampleListening).status = .listening ∧
    (startNextTrial oracle47 2000 sampleListening).spoken =
      speechTextForTarget (oracle47 sampleListening.gen)
        sampleListening.level :: sampleListening.spoken :=
  next_abandons_target oracle47 2000 sampleListening (by decide)

end NumberInput
